import Mathlib

/-!
Verification of the runner-lifecycle logic of `src/gh.js` (ec2-github-runner).

Shallow embedding: the module's four operations — the paginated runner lister
with the label locator (`getRunner`), the registration-token provider
(`getRegistrationToken`), the runner remover (`removeRunner`) and the
registration waiter (`waitForRunnerRegistered`) — are translated into pure
Lean functions.  Network I/O is modelled by explicit arguments: the paginated
listing endpoint becomes a function from page numbers to `Except`-results, the
DELETE endpoint a function from the request parameters to an `Except`-result,
and the single POST of the token provider a single `Except`-value.  The
`async` loops of the source become fuel-indexed recursions returning `none`
when the fuel runs out (the source loop would still be running).  Error-level
log calls (`core.error`) are tracked as explicit string lists; `core.info`
calls carry no observable data for the properties below and are omitted.
-/

namespace Gh

deriving instance DecidableEq for Except

/-- Errors raised by the remote API client are opaque to this module; we model
them as strings. -/
abbrev Err := String

/-- One entry of a runner's `labels` array.  The lodash shape-filter in the
source only ever inspects the `name` field of a label entry, so that is the
only field we carry. -/
structure LabelEntry where
  name : String
deriving DecidableEq

/-- A runner record as returned by
`GET /repos/{owner}/{repo}/actions/runners`: `id`, `name`, `status`
(`"online"`/`"offline"`) and the ordered `labels` sequence. -/
structure RunnerRecord where
  id : Nat
  name : String
  status : String
  labels : List LabelEntry
deriving DecidableEq

/-- The remote listing endpoint: a page number (1-based, as sent in the
`page=` query parameter) to either an error (non-2xx, raised by the client)
or the page's runner list (`response.data.runners`). -/
abbrev Remote := Nat → Except Err (List RunnerRecord)

/-- `const PAGE_SIZE = 100`. -/
def PAGE_SIZE : Nat := 100

/-- The `while (!done)` pagination loop of `getRunner`:
starting at `page`, request pages, append each page's records, stop when a
page has fewer than `PAGE_SIZE` records; any raised error aborts the loop.
Also counts the requests issued.  `none` means the fuel ran out. -/
def listRunnersFrom (remote : Remote) : Nat → Nat → Option (Except Err (List RunnerRecord) × Nat)
  | 0, _ => none
  | fuel + 1, page =>
    match remote page with
    | .error e => some (.error e, 1)
    | .ok recs =>
      if recs.length < PAGE_SIZE then
        some (.ok recs, 1)
      else
        match listRunnersFrom remote fuel (page + 1) with
        | none => none
        | some (result, n) => some ((result.map (fun rest => recs ++ rest)), n + 1)

/-- The full listing: the loop started with `page = 1` (`let page = 1`). -/
def listRunners (remote : Remote) (fuel : Nat) : Option (Except Err (List RunnerRecord) × Nat) :=
  listRunnersFrom remote fuel 1

/-- `_.filter(runners, { labels: [{ name: label }] })` applied to one record:
lodash's partial, unordered array match holds exactly when some entry of the
record's `labels` array has `name` strictly equal to the label. -/
def runnerMatches (label : String) (r : RunnerRecord) : Bool :=
  r.labels.any (fun l => l.name == label)

/-- `const foundRunners = _.filter(runners, { labels: [{ name: label }] });`
followed by `foundRunners.length > 0 ? foundRunners[0] : null`. -/
def findByLabel (label : String) (runners : List RunnerRecord) : Option RunnerRecord :=
  (runners.filter (runnerMatches label)).head?

/-- `getRunner(label)`: run the pagination loop inside `try`; on any raised
error the `catch` returns `null` (here `some none`); otherwise select the
first record matching the label.  The outer `none` means the fuel ran out. -/
def getRunner (label : String) (remote : Remote) (fuel : Nat) : Option (Option RunnerRecord) :=
  match listRunners remote fuel with
  | none => none
  | some (.error _, _) => some none
  | some (.ok runners, _) => some (findByLabel label runners)

/-- A record matches the label iff some entry of its labels list is named
exactly `label`. -/
theorem runnerMatches_iff (label : String) (r : RunnerRecord) :
    runnerMatches label r = true ↔ ∃ l ∈ r.labels, l.name = label := by
  simp [runnerMatches]

/-- `findByLabel` is `List.find?` of the match predicate. -/
theorem findByLabel_eq_find? (label : String) (runners : List RunnerRecord) :
    findByLabel label runners = runners.find? (runnerMatches label) := by
  induction runners with
  | nil => rfl
  | cons r rest ih =>
    by_cases h : runnerMatches label r
    · simp [findByLabel, List.filter_cons, h, List.find?]
    · simp only [Bool.not_eq_true] at h
      simp [findByLabel, List.filter_cons, h, List.find?]

/-- `List.find?` returns an element satisfying the predicate, and everything
before it in the list fails the predicate. -/
theorem find?_first_split {α : Type} (p : α → Bool) :
    ∀ (l : List α) (x : α), l.find? p = some x →
      p x = true ∧ ∃ pre post, l = pre ++ x :: post ∧ ∀ y ∈ pre, p y = false := by
  intro l
  induction l with
  | nil => intro x h; simp [List.find?] at h
  | cons a rest ih =>
    intro x h
    by_cases ha : p a
    · rw [List.find?_cons_of_pos _ ha] at h
      cases h
      exact ⟨ha, [], rest, rfl, by simp⟩
    · simp only [Bool.not_eq_true] at ha
      rw [List.find?_cons_of_neg _ (by simp [ha])] at h
      obtain ⟨hx, pre, post, rfl, hpre⟩ := ih x h
      refine ⟨hx, a :: pre, post, rfl, ?_⟩
      intro y hy
      rcases List.mem_cons.mp hy with rfl | hy
      · exact ha
      · exact hpre y hy

/-- Claim C2: for every label and every runner list, the locator selects the
first record (in listing order) whose `labels` sequence contains an entry
named exactly `label` — the entry's position inside `labels` is irrelevant —
and yields `none` when no record has such an entry; and `getRunner` applies
exactly this selection to the listed runners. -/
theorem getRunner_first_label_match (label : String) (runners : List RunnerRecord) :
    (findByLabel label runners = none ↔
        ∀ r ∈ runners, ∀ l ∈ r.labels, l.name ≠ label) ∧
    (∀ r, findByLabel label runners = some r →
        (∃ l ∈ r.labels, l.name = label) ∧
        ∃ pre post, runners = pre ++ r :: post ∧
          ∀ r' ∈ pre, ∀ l ∈ r'.labels, l.name ≠ label) ∧
    (∀ remote fuel n, listRunners remote fuel = some (.ok runners, n) →
        getRunner label remote fuel = some (findByLabel label runners)) := by
  refine ⟨?_, ?_, ?_⟩
  · rw [findByLabel_eq_find?, List.find?_eq_none]
    simp [runnerMatches]
  · intro r h
    rw [findByLabel_eq_find?] at h
    obtain ⟨hx, pre, post, rfl, hpre⟩ := find?_first_split (runnerMatches label) _ r h
    refine ⟨(runnerMatches_iff label r).mp hx, pre, post, rfl, ?_⟩
    intro r' hr'
    have := hpre r' hr'
    simp [runnerMatches] at this
    exact this
  · intro remote fuel n h
    simp [getRunner, h]

/-- A sample runner carrying the label `"x"` in the second position of its
labels list. -/
def demoLabelRunner : RunnerRecord := ⟨3, "r3", "offline", [⟨"extra"⟩, ⟨"x"⟩]⟩

/-- A sample runner without the label `"x"`. -/
def demoOtherRunner : RunnerRecord := ⟨1, "r1", "offline", [⟨"y"⟩]⟩

/-- A later sample runner also carrying the label `"x"` (a duplicate). -/
def demoDupRunner : RunnerRecord := ⟨9, "r9", "offline", [⟨"x"⟩]⟩

/-- Witness for C2: on a concrete list with a duplicate label, the located
record carries the label (in second position) and is the first match in
listing order. -/
theorem getRunner_first_label_match_witness :
    (∃ l ∈ demoLabelRunner.labels, l.name = "x") ∧
    ∃ pre post,
      [demoOtherRunner, demoLabelRunner, demoDupRunner] = pre ++ demoLabelRunner :: post ∧
      ∀ r' ∈ pre, ∀ l ∈ r'.labels, l.name ≠ "x" :=
  (getRunner_first_label_match "x" [demoOtherRunner, demoLabelRunner, demoDupRunner]).2.1
    demoLabelRunner (by decide)

/-- Claim C3: a failure raised by any listing request inside `getRunner`
makes the whole operation return `null` (no exception escapes), and a
successful listing with no matching runner returns `null` as well — the two
outcomes are indistinguishable to callers. -/
theorem getRunner_error_is_not_found (label : String) (remote : Remote) (fuel : Nat) :
    (∀ e n, listRunners remote fuel = some (.error e, n) →
        getRunner label remote fuel = some none) ∧
    (∀ runners n, listRunners remote fuel = some (.ok runners, n) →
        (∀ r ∈ runners, runnerMatches label r = false) →
        getRunner label remote fuel = some none) := by
  constructor
  · intro e n h
    simp [getRunner, h]
  · intro runners n h hnone
    have : findByLabel label runners = none := by
      rw [findByLabel_eq_find?, List.find?_eq_none]
      intro x hx
      simp [hnone x hx]
    simp [getRunner, h, this]

/-- A remote whose every listing request raises. -/
def failingRemote : Remote := fun _ => .error "HttpError: 500"

/-- A remote with no registered runners at all. -/
def emptyRemote : Remote := fun _ => .ok []

/-- Witness for C3: an erroring listing and an empty successful listing both
make `getRunner` return `null`. -/
theorem getRunner_error_is_not_found_witness :
    getRunner "x" failingRemote 1 = some none ∧
    getRunner "x" emptyRemote 1 = some none :=
  ⟨(getRunner_error_is_not_found "x" failingRemote 1).1 "HttpError: 500" 1 rfl,
   (getRunner_error_is_not_found "x" emptyRemote 1).2 [] 1 rfl (by simp)⟩

/-- The pagination loop on a remote that serves a run of full pages followed
by one short page, starting from an arbitrary page number: it issues one
request per page, concatenates the pages in order, and stops at the short
page. -/
theorem listRunnersFrom_pages (remote : Remote) :
    ∀ (full : List (List RunnerRecord)) (lastPage : List RunnerRecord) (page fuel : Nat),
      (∀ i, (hi : i < full.length) → remote (page + i) = .ok (full.get ⟨i, hi⟩)) →
      remote (page + full.length) = .ok lastPage →
      (∀ p ∈ full, ¬ p.length < PAGE_SIZE) →
      lastPage.length < PAGE_SIZE →
      full.length < fuel →
      listRunnersFrom remote fuel page =
        some (.ok (full.flatten ++ lastPage), full.length + 1) := by
  intro full
  induction full with
  | nil =>
    intro lastPage page fuel _ hlast _ hshort hfuel
    obtain ⟨f, rfl⟩ : ∃ f, fuel = f + 1 := ⟨fuel - 1, by omega⟩
    simp only [List.length_nil, Nat.add_zero] at hlast
    simp [listRunnersFrom, hlast, hshort]
  | cons p rest ih =>
    intro lastPage page fuel hfull hlast hbig hshort hfuel
    obtain ⟨f, rfl⟩ : ∃ f, fuel = f + 1 := ⟨fuel - 1, by omega⟩
    have hp : remote page = .ok p := by
      have h0 := hfull 0 (by simp)
      simpa using h0
    have hrec := ih lastPage (page + 1) f
      (by
        intro i hi
        have h2 := hfull (i + 1) (by simp; omega)
        have e : page + (i + 1) = page + 1 + i := by omega
        rw [e] at h2
        simpa using h2)
      (by
        simp only [List.length_cons] at hlast
        have e : page + (rest.length + 1) = page + 1 + rest.length := by omega
        rw [e] at hlast
        exact hlast)
      (fun q hq => hbig q (List.mem_cons_of_mem _ hq))
      hshort
      (by simp only [List.length_cons] at hfuel; omega)
    have hnotshort : ¬ p.length < PAGE_SIZE := hbig p (List.mem_cons_self _ _)
    simp [listRunnersFrom, hp, hnotshort, hrec, Except.map, List.append_assoc]

/-- A mock remote built from an explicit page sequence: page `n` (1-based)
returns the `n`-th entry of `ps`, and pages past the end are empty. -/
def remoteOfPages (ps : List (List RunnerRecord)) : Remote :=
  fun page => .ok (ps.getD (page - 1) [])

/-- Claim C4: the lister requests pages of `PAGE_SIZE = 100` starting at page
1, appends each page's records in order, increments the page index each
iteration, and terminates exactly when a page comes back with fewer than 100
records: on a remote serving `full` pages of exactly 100 records followed by
a short page it issues `full.length + 1` requests and returns the
concatenation of all pages. -/
theorem listRunners_pages (full : List (List RunnerRecord)) (lastPage : List RunnerRecord)
    (hbig : ∀ p ∈ full, p.length = PAGE_SIZE)
    (hshort : lastPage.length < PAGE_SIZE)
    (fuel : Nat) (hfuel : full.length < fuel) :
    listRunners (remoteOfPages (full ++ [lastPage])) fuel =
      some (.ok (full.flatten ++ lastPage), full.length + 1) := by
  apply listRunnersFrom_pages (remoteOfPages (full ++ [lastPage])) full lastPage 1 fuel
  · intro i hi
    have e : 1 + i - 1 = i := by omega
    simp only [remoteOfPages, e]
    rw [List.getD_eq_getElem?_getD, List.getElem?_append]
    simp [hi, List.getElem?_eq_getElem hi]
  · have e : 1 + full.length - 1 = full.length := by omega
    simp only [remoteOfPages, e]
    rw [List.getD_eq_getElem?_getD, List.getElem?_append_right (Nat.le_refl _)]
    simp
  · intro p hp
    rw [hbig p hp]
    omega
  · exact hshort
  · exact hfuel

/-- A concrete full page of 100 distinct runners with ids starting at
`base`. -/
def demoPage (base : Nat) : List RunnerRecord :=
  (List.range PAGE_SIZE).map (fun i => ⟨base + i, "runner", "offline", [⟨"lbl"⟩]⟩)

/-- Witness for C4: a remote sequence of 100, 100 and 0 records issues
exactly three requests and returns all 200 records. -/
theorem listRunners_pages_witness :
    listRunners (remoteOfPages ([demoPage 0, demoPage 100] ++ [[]])) 3 =
      some (.ok ([demoPage 0, demoPage 100].flatten ++ []), 3) ∧
    ([demoPage 0, demoPage 100].flatten ++ ([] : List RunnerRecord)).length = 200 :=
  ⟨listRunners_pages [demoPage 0, demoPage 100] []
      (by intro p hp; simp [demoPage] at hp ⊢; rcases hp with rfl | rfl <;> simp)
      (by simp [PAGE_SIZE]) 3 (by simp),
   by simp [demoPage, PAGE_SIZE]⟩

/-- The `data` payload of the registration-token POST response
(`response.data.token`). -/
structure TokenResponse where
  token : String
deriving DecidableEq

/-- The error-level log line of the token provider's `catch` branch. -/
def tokenErrorMsg : String := "GitHub Registration Token receiving error"

/-- `getRegistrationToken()`: one POST request (modelled by its result);
on success return `response.data.token`, on failure log one error-level line
and rethrow.  The second component is the list of error-level log lines
emitted by this operation. -/
def getRegistrationToken (request : Except Err TokenResponse) :
    Except Err String × List String :=
  match request with
  | .ok resp => (.ok resp.token, [])
  | .error e => (.error e, [tokenErrorMsg])

/-- Claim C7: if the POST succeeds, the token string from the response data
is returned (and no error is logged); if it fails, the same error is
propagated to the caller and the error log contains exactly one entry.  The
operation consumes a single request — there is no retry. -/
theorem getRegistrationToken_spec (request : Except Err TokenResponse) :
    (∀ resp, request = .ok resp →
        getRegistrationToken request = (.ok resp.token, [])) ∧
    (∀ e, request = .error e →
        getRegistrationToken request = (.error e, [tokenErrorMsg]) ∧
        (getRegistrationToken request).2.length = 1) := by
  constructor
  · intro resp h
    subst h
    rfl
  · intro e h
    subst h
    exact ⟨rfl, rfl⟩

/-- Witness for C7: a mock response `{data: {token: "abc"}}` yields `"abc"`,
and a mock client raising `"boom"` yields the same error with exactly one
error-level log line. -/
theorem getRegistrationToken_spec_witness :
    getRegistrationToken (.ok ⟨"abc"⟩) = (.ok "abc", []) ∧
    getRegistrationToken (.error "boom") = (.error "boom", [tokenErrorMsg]) ∧
    (getRegistrationToken (.error "boom")).2.length = 1 :=
  ⟨(getRegistrationToken_spec (.ok ⟨"abc"⟩)).1 ⟨"abc"⟩ rfl,
   ((getRegistrationToken_spec (.error "boom")).2 "boom" rfl).1,
   ((getRegistrationToken_spec (.error "boom")).2 "boom" rfl).2⟩

/-- The shared `config.githubContext` object.  A JavaScript object's key is
either absent or present; the `runner_id` key, absent in the configured
context and added by `_.merge` in `removeRunner`, is modelled as an
`Option`. -/
structure GithubContext where
  owner : String
  repo : String
  runner_id : Option Nat
deriving DecidableEq

/-- The set of keys of the context object, in insertion order. -/
def contextKeys (ctx : GithubContext) : List String :=
  ["owner", "repo"] ++ (match ctx.runner_id with
    | some _ => ["runner_id"]
    | none => [])

/-- `_.merge(config.githubContext, { runner_id: runner.id })`: lodash `merge`
writes into its first argument, so the shared context itself acquires the
`runner_id` key. -/
def mergeRunnerId (ctx : GithubContext) (rid : Nat) : GithubContext :=
  { ctx with runner_id := some rid }

/-- The error-level log line of the remover's `catch` branch. -/
def removalErrorMsg : String := "GitHub self-hosted runner removal error"

/-- The observable outcome of `removeRunner()`: the returned/raised result,
the final state of the shared `config.githubContext`, the runner ids sent in
DELETE requests, and the error-level log lines emitted. -/
structure RemoveResult where
  outcome : Except Err Unit
  finalCtx : GithubContext
  deletes : List Nat
  errlog : List String
deriving DecidableEq

/-- `removeRunner()`: locate the runner for the configured label; if absent,
skip removal and return; if present, merge `runner_id` into the shared
context and issue one DELETE request with the merged parameters, rethrowing
a failure after logging it.  `deleteReq` models the DELETE endpoint applied
to its request parameters; `none` means the locator's fuel ran out. -/
def removeRunner (label : String) (remote : Remote) (fuel : Nat)
    (deleteReq : GithubContext → Except Err Unit) (ctx : GithubContext) :
    Option RemoveResult :=
  match getRunner label remote fuel with
  | none => none
  | some none => some ⟨.ok (), ctx, [], []⟩
  | some (some runner) =>
    match deleteReq (mergeRunnerId ctx runner.id) with
    | .ok _ => some ⟨.ok (), mergeRunnerId ctx runner.id, [runner.id], []⟩
    | .error e => some ⟨.error e, mergeRunnerId ctx runner.id, [runner.id], [removalErrorMsg]⟩

/-- Claim C5: when the locator returns an absent result, `removeRunner`
completes successfully, issues zero DELETE requests, and logs no error. -/
theorem removeRunner_absent (label : String) (remote : Remote) (fuel : Nat)
    (deleteReq : GithubContext → Except Err Unit) (ctx : GithubContext)
    (h : getRunner label remote fuel = some none) :
    removeRunner label remote fuel deleteReq ctx = some ⟨.ok (), ctx, [], []⟩ := by
  simp [removeRunner, h]

/-- A context as configured: `owner`/`repo` set, no `runner_id` key. -/
def demoCtx : GithubContext := ⟨"octo", "repo", none⟩

/-- Witness for C5: with an empty repository, removal for label `"x"`
succeeds with zero DELETE requests. -/
theorem removeRunner_absent_witness :
    removeRunner "x" emptyRemote 1 (fun _ => .ok ()) demoCtx =
      some ⟨.ok (), demoCtx, [], []⟩ :=
  removeRunner_absent "x" emptyRemote 1 (fun _ => .ok ()) demoCtx (by decide)

/-- Claim C6: when the locator returns a record, `removeRunner` issues
exactly one DELETE request keyed by that record's id; if the DELETE succeeds
the operation returns successfully, and if it fails the same error is
propagated and the removal error is logged. -/
theorem removeRunner_found (label : String) (remote : Remote) (fuel : Nat)
    (deleteReq : GithubContext → Except Err Unit) (ctx : GithubContext)
    (r : RunnerRecord) (h : getRunner label remote fuel = some (some r)) :
    ∃ res, removeRunner label remote fuel deleteReq ctx = some res ∧
      res.deletes = [r.id] ∧
      (deleteReq (mergeRunnerId ctx r.id) = .ok () →
        res.outcome = .ok () ∧ res.errlog = []) ∧
      (∀ e, deleteReq (mergeRunnerId ctx r.id) = .error e →
        res.outcome = .error e ∧ res.errlog = [removalErrorMsg]) := by
  cases hd : deleteReq (mergeRunnerId ctx r.id) with
  | ok u =>
    refine ⟨⟨.ok (), mergeRunnerId ctx r.id, [r.id], []⟩, ?_, rfl, ?_, ?_⟩
    · simp [removeRunner, h, hd]
    · intro _; exact ⟨rfl, rfl⟩
    · intro e he; simp at he
  | error e =>
    refine ⟨⟨.error e, mergeRunnerId ctx r.id, [r.id], [removalErrorMsg]⟩, ?_, rfl, ?_, ?_⟩
    · simp [removeRunner, h, hd]
    · intro hok; simp at hok
    · intro e' he
      cases he
      exact ⟨rfl, rfl⟩

/-- A one-page remote whose single runner carries the label `"x"`. -/
def demoRemote : Remote := remoteOfPages [[⟨7, "i-0abc", "online", [⟨"x"⟩]⟩]]

/-- Witness for C6: with one registered runner of id 7 labelled `"x"`,
removal issues exactly the DELETE for id 7. -/
theorem removeRunner_found_witness :
    ∃ res, removeRunner "x" demoRemote 1 (fun _ => .ok ()) demoCtx = some res ∧
      res.deletes = [7] ∧
      ((fun _ => (.ok () : Except Err Unit)) (mergeRunnerId demoCtx 7) = .ok () →
        res.outcome = .ok () ∧ res.errlog = []) ∧
      (∀ e, (fun _ => (.ok () : Except Err Unit)) (mergeRunnerId demoCtx 7) = .error e →
        res.outcome = .error e ∧ res.errlog = [removalErrorMsg]) :=
  removeRunner_found "x" demoRemote 1 (fun _ => .ok ()) demoCtx
    ⟨7, "i-0abc", "online", [⟨"x"⟩]⟩ (by decide)

/-- Counterexample to claim C8 as stated: `removeRunner` on a repository
whose runner is found passes `_.merge(config.githubContext, {runner_id})` to
the DELETE request, and lodash `merge` writes into its first argument — the
shared context's key set afterwards contains `runner_id`, so it is not
identical to the key set before the call. -/
theorem removeRunner_mutates_context_cex :
    removeRunner "x" demoRemote 1 (fun _ => .ok ()) demoCtx =
      some ⟨.ok (), ⟨"octo", "repo", some 7⟩, [7], []⟩ ∧
    contextKeys ⟨"octo", "repo", some 7⟩ ≠ contextKeys demoCtx := by
  decide

/-- Claim C8 (amended): no operation ever changes the `owner` and `repo`
fields of the shared context, and a removal that finds no runner leaves the
context untouched; but a removal that finds a runner mutates the shared
context, growing its key set to `owner, repo, runner_id` (the token provider
and the waiter take no reference to the context and cannot mutate it). -/
theorem removeRunner_context_frame (label : String) (remote : Remote) (fuel : Nat)
    (deleteReq : GithubContext → Except Err Unit) (ctx : GithubContext)
    (res : RemoveResult)
    (h : removeRunner label remote fuel deleteReq ctx = some res) :
    res.finalCtx.owner = ctx.owner ∧ res.finalCtx.repo = ctx.repo ∧
    (getRunner label remote fuel = some none → res.finalCtx = ctx) ∧
    (∀ r, getRunner label remote fuel = some (some r) →
      res.finalCtx = mergeRunnerId ctx r.id ∧
      contextKeys res.finalCtx = ["owner", "repo", "runner_id"]) := by
  cases hg : getRunner label remote fuel with
  | none =>
    simp [removeRunner, hg] at h
  | some runner? =>
    cases runner? with
    | none =>
      simp only [removeRunner, hg, Option.some.injEq] at h
      subst h
      refine ⟨rfl, rfl, fun _ => rfl, ?_⟩
      intro r hr
      simp at hr
    | some r0 =>
      simp only [removeRunner, hg] at h
      cases hd : deleteReq (mergeRunnerId ctx r0.id) with
      | ok u =>
        rw [hd] at h
        simp only [Option.some.injEq] at h
        subst h
        refine ⟨rfl, rfl, ?_, ?_⟩
        · intro habs; simp at habs
        · intro r hr
          injection hr with hr
          injection hr with hr
          subst hr
          exact ⟨rfl, rfl⟩
      | error e =>
        rw [hd] at h
        simp only [Option.some.injEq] at h
        subst h
        refine ⟨rfl, rfl, ?_, ?_⟩
        · intro habs; simp at habs
        · intro r hr
          injection hr with hr
          injection hr with hr
          subst hr
          exact ⟨rfl, rfl⟩

/-- Witness for the amended C8: the concrete found-runner removal preserves
`owner`/`repo` and produces exactly the grown key set. -/
theorem removeRunner_context_frame_witness :
    (⟨"octo", "repo", some 7⟩ : GithubContext).owner = demoCtx.owner ∧
    (⟨"octo", "repo", some 7⟩ : GithubContext).repo = demoCtx.repo ∧
    (getRunner "x" demoRemote 1 = some none →
      (⟨.ok (), ⟨"octo", "repo", some 7⟩, [7], []⟩ : RemoveResult).finalCtx = demoCtx) ∧
    (∀ r, getRunner "x" demoRemote 1 = some (some r) →
      (⟨.ok (), ⟨"octo", "repo", some 7⟩, [7], []⟩ : RemoveResult).finalCtx
          = mergeRunnerId demoCtx r.id ∧
      contextKeys (⟨.ok (), ⟨"octo", "repo", some 7⟩, [7], []⟩ : RemoveResult).finalCtx
          = ["owner", "repo", "runner_id"]) :=
  removeRunner_context_frame "x" demoRemote 1 (fun _ => .ok ()) demoCtx
    ⟨.ok (), ⟨"octo", "repo", some 7⟩, [7], []⟩ (by decide)

/-- `const timeoutMinutes = 5`. -/
def timeoutMinutes : Nat := 5

/-- `const retryIntervalSeconds = 10`. -/
def retryIntervalSeconds : Nat := 10

/-- `const quietPeriodSeconds = 30`: the fixed delay before polling starts;
no locate call happens during it. -/
def quietPeriodSeconds : Nat := 30

/-- The rejection message of the waiter, built from `timeoutMinutes` exactly
as the source template literal builds it. -/
def timeoutMessage : String :=
  "A timeout of " ++ toString timeoutMinutes ++
    " minutes is exceeded. Your AWS EC2 instance was not able to register itself in GitHub as a new self-hosted runner."

/-- The settled outcome of the waiter's promise. -/
inductive WaitOutcome where
  | registered : WaitOutcome
  | timedOut : String → WaitOutcome
deriving DecidableEq

/-- `runner && runner.status === 'online'`. -/
def isOnline : Option RunnerRecord → Bool
  | some r => r.status == "online"
  | none => false

/-- The `setInterval` body of `waitForRunnerRegistered`, iterated: on tick
`t` (1-based) with accumulated `waitSeconds`, the locator is awaited first;
then the timeout condition `waitSeconds > timeoutMinutes * 60` is checked,
then the online condition.  In the source both `reject` and `resolve` can be
invoked on the same tick (there is no `return` after `reject`), but a promise
settles with whichever is called first, so the timeout branch decides the
outcome.  Returns the settled outcome together with the number of locate
invocations made; `none` means the fuel ran out. -/
def pollLoop (locate : Nat → Option RunnerRecord) : Nat → Nat → Nat → Option (WaitOutcome × Nat)
  | 0, _, _ => none
  | fuel + 1, t, waitSeconds =>
    let runner? := locate t
    if waitSeconds > timeoutMinutes * 60 then
      some (.timedOut timeoutMessage, 1)
    else if isOnline runner? then
      some (.registered, 1)
    else
      match pollLoop locate fuel (t + 1) (waitSeconds + retryIntervalSeconds) with
      | none => none
      | some (o, n) => some (o, n + 1)

/-- `waitForRunnerRegistered(label)` after the quiet period: the polling
loop started at tick 1 with `waitSeconds = 0`.  `locate t` stands for the
result of `await getRunner(label)` on tick `t`. -/
def waitForRunnerRegistered (locate : Nat → Option RunnerRecord) (fuel : Nat) :
    Option (WaitOutcome × Nat) :=
  pollLoop locate fuel 1 0

/-- A run of the poll loop along which the locator never reports online:
starting `k` ticks before the timeout tick (`waitSeconds = 310 - 10 * k`),
the loop rejects with the timeout message after exactly `k + 1` further
locate invocations. -/
theorem pollLoop_timeout_run (locate : Nat → Option RunnerRecord) :
    ∀ (k t fuel : Nat), k ≤ 31 → k < fuel →
      (∀ s, t ≤ s → s < t + k → isOnline (locate s) = false) →
      pollLoop locate fuel t (310 - 10 * k) = some (.timedOut timeoutMessage, k + 1) := by
  intro k
  induction k with
  | zero =>
    intro t fuel _ hfuel _
    obtain ⟨f, rfl⟩ : ∃ f, fuel = f + 1 := ⟨fuel - 1, by omega⟩
    simp [pollLoop, timeoutMinutes]
  | succ k ih =>
    intro t fuel hk hfuel hoff
    obtain ⟨f, rfl⟩ : ∃ f, fuel = f + 1 := ⟨fuel - 1, by omega⟩
    have hcond : ¬ (310 - 10 * (k + 1) > timeoutMinutes * 60) := by
      simp only [timeoutMinutes]
      omega
    have hofft : isOnline (locate t) = false := hoff t (Nat.le_refl t) (by omega)
    have hrec' := ih (t + 1) f (by omega) (by omega)
      (fun s hs1 hs2 => hoff s (by omega) (by omega))
    have hrec : pollLoop locate f (t + 1) (310 - 10 * (k + 1) + retryIntervalSeconds) =
        some (.timedOut timeoutMessage, k + 1) := by
      have e : 310 - 10 * (k + 1) + retryIntervalSeconds = 310 - 10 * k := by
        simp only [retryIntervalSeconds]
        omega
      rw [e]
      exact hrec'
    simp [pollLoop, hcond, hofft, hrec]

/-- Counterexample to claim C1 as stated: with a locator that never reports
online, the waiter makes exactly 32 locate polls before rejecting — one per
tick for `waitSeconds = 0, 10, …, 300, 310` — which exceeds the claimed
bound of `300/10 + 1 = 31` polls. -/
theorem waiter_poll_count_cex :
    waitForRunnerRegistered (fun _ => none) 32 = some (.timedOut timeoutMessage, 32) ∧
    ¬ (32 ≤ 300 / 10 + 1) := by
  decide

/-- Claim C1 (amended): for every execution in which the locator never
returns an online runner, the waiter rejects once the accumulated wait
(310 s on the rejecting tick) exceeds the 300 s threshold, after exactly
`300/10 + 2 = 32` locate polls, and the rejection message names the
configured 5-minute timeout. -/
theorem waiter_timeout_spec (locate : Nat → Option RunnerRecord) (fuel : Nat)
    (hoff : ∀ t, isOnline (locate t) = false) (hfuel : 31 < fuel) :
    waitForRunnerRegistered locate fuel = some (.timedOut timeoutMessage, 32) ∧
    timeoutMinutes * 60 < 310 ∧
    ∃ pre post, timeoutMessage = pre ++ toString timeoutMinutes ++ " minutes" ++ post := by
  refine ⟨?_, by simp [timeoutMinutes], "A timeout of ",
    " is exceeded. Your AWS EC2 instance was not able to register itself in GitHub as a new self-hosted runner.",
    by rfl⟩
  have h := pollLoop_timeout_run locate 31 1 fuel (by omega) hfuel
    (fun s _ _ => hoff s)
  have e : (310 - 10 * 31 : Nat) = 0 := by norm_num
  rw [e] at h
  exact h

/-- Witness for the amended C1: the never-online locator concretely rejects
with 32 polls and the 5-minute message. -/
theorem waiter_timeout_spec_witness :
    waitForRunnerRegistered (fun _ => none) 33 = some (.timedOut timeoutMessage, 32) ∧
    timeoutMinutes * 60 < 310 ∧
    ∃ pre post, timeoutMessage = pre ++ toString timeoutMinutes ++ " minutes" ++ post :=
  waiter_timeout_spec (fun _ => none) 33 (fun _ => rfl) (by omega)

/-- A registered, online runner labelled `"x"`. -/
def onlineRunner : RunnerRecord := ⟨7, "i-0abc", "online", [⟨"x"⟩]⟩

/-- Claim C9: within a single poll tick the timeout condition is evaluated
before the online condition, so on a tick where the accumulated wait already
exceeds the timeout and the located runner is simultaneously online, the
settled outcome is the timeout rejection, not the success resolution. -/
theorem waiter_timeout_precedence (locate : Nat → Option RunnerRecord) (t w fuel : Nat)
    (htimeout : timeoutMinutes * 60 < w) (_honline : isOnline (locate t) = true) :
    pollLoop locate (fuel + 1) t w = some (.timedOut timeoutMessage, 1) := by
  simp [pollLoop, htimeout]

/-- Witness for C9: at `waitSeconds = 310` with an online runner located on
the same tick, the outcome is the timeout rejection. -/
theorem waiter_timeout_precedence_witness :
    pollLoop (fun _ => some onlineRunner) 1 32 310 = some (.timedOut timeoutMessage, 1) :=
  waiter_timeout_precedence (fun _ => some onlineRunner) 32 310 0 (by decide) (by decide)

/-- Claim C10: the locator is invoked on every poll tick, including the one
on which the timeout rejection fires — 32 invocations for a timing-out wait —
and the final tick's locate result is unconstrained: only ticks 1 through 31
need to be non-online for the waiter to reject, so the last locate call
cannot change the rejected outcome. -/
theorem waiter_final_tick_locates (locate : Nat → Option RunnerRecord) (fuel : Nat)
    (hoff : ∀ t, t ≤ 31 → isOnline (locate t) = false) (hfuel : 31 < fuel) :
    waitForRunnerRegistered locate fuel = some (.timedOut timeoutMessage, 32) := by
  have h := pollLoop_timeout_run locate 31 1 fuel (by omega) hfuel
    (fun s hs1 hs2 => hoff s (by omega))
  have e : (310 - 10 * 31 : Nat) = 0 := by norm_num
  rw [e] at h
  exact h

/-- Witness for C10: a locator that returns an online runner exactly on tick
32 — the rejecting tick — is still polled 32 times and the waiter still
rejects. -/
theorem waiter_final_tick_locates_witness :
    waitForRunnerRegistered (fun t => if t = 32 then some onlineRunner else none) 32 =
      some (.timedOut timeoutMessage, 32) :=
  waiter_final_tick_locates (fun t => if t = 32 then some onlineRunner else none) 32
    (by decide) (by omega)

end Gh
